import Mathlib

/-!
Shallow embedding of the pdf-generation core (`pydf/wkhtmltopdf.py`):
the URL rejection, the command-line argument marshalling, the
exit-status/%PDF success policy, the byte-level metadata patch built on
Python's `re.sub(b'/Title.*\n.*\n/Producer.*', repl, pdf, count=1)` —
including `re.sub`'s compilation of the replacement as an escape/group
template, which can raise `re.error` before any scanning — and the
version accessor.  Byte strings are modelled as `List Nat`; the external
process is a parameter producing a `ProcResult`.
-/

namespace Pydf

/-- The 4-byte PDF signature `%PDF`. -/
def pdfSig : List Nat := [37, 80, 68, 70]

/-- The literal bytes of `/Title`. -/
def titleLit : List Nat := [47, 84, 105, 116, 108, 101]

/-- The literal bytes of `/Producer`. -/
def producerLit : List Nat := [47, 80, 114, 111, 100, 117, 99, 101, 114]

/-- ASCII whitespace bytes, the set stripped by Python `bytes.strip()`. -/
def isWSByte (b : Nat) : Bool :=
  b == 32 || b == 9 || b == 10 || b == 13 || b == 11 || b == 12

/-- Python `bytes.strip()`: drop whitespace bytes from both ends. -/
def bstrip (s : List Nat) : List Nat :=
  ((s.dropWhile isWSByte).reverse.dropWhile isWSByte).reverse

/-- Whitespace characters stripped by Python `str.lstrip()` (ASCII part). -/
def isPySpace (c : Char) : Bool :=
  c == ' ' || c == '\t' || c == '\n' || c == '\r' ||
    c == Char.ofNat 11 || c == Char.ofNat 12

/-- Python `str.lstrip()`. -/
def lstrip (s : String) : String :=
  String.mk (s.toList.dropWhile isPySpace)

/-- Python `str.startswith(t)` at character level. -/
def strStartsWith (s t : String) : Bool :=
  t.toList.isPrefixOf s.toList

/-- The guard `source.lstrip().startswith(('http', 'www'))`. -/
def isUrlSource (source : String) : Bool :=
  strStartsWith (lstrip source) "http" || strStartsWith (lstrip source) "www"

/-- Encoding of a string to bytes (`str.encode()`); codepoint-level, which
agrees with UTF-8 on the ASCII data the program manipulates. -/
def strBytes (s : String) : List Nat :=
  s.toList.map (fun c => c.toNat)

/-- Python values that can appear as option values: `None`, booleans,
integers and strings. -/
inductive PyVal where
  | none
  | bool (b : Bool)
  | int (n : Int)
  | str (s : String)
deriving DecidableEq

/-- Python `value in \x7bNone, False\x7d`: set membership tests equality, so
the integer `0` is caught (`0 == False` in Python). -/
def inNoneFalse : PyVal → Bool
  | PyVal.none => true
  | PyVal.bool b => !b
  | PyVal.int n => n == 0
  | PyVal.str _ => false

/-- Python `value is True`: identity, only the boolean `True` itself. -/
def isTrueId : PyVal → Bool
  | PyVal.bool b => b
  | _ => false

/-- Python `str(value)` on the modelled values. -/
def pyStr : PyVal → String
  | PyVal.none => "None"
  | PyVal.bool b => if b then "True" else "False"
  | PyVal.int n => toString n
  | PyVal.str s => s

/-- The flag token: `'--' + name.replace('_', '-')`. -/
def flagName (name : String) : String :=
  "--" ++ String.mk (name.toList.map (fun c => if c = '_' then '-' else c))

/-- The tokens one option field contributes to the command line
(the body of the marshalling loop for a single `(name, value)` pair). -/
def tokensFor (name : String) (v : PyVal) : List String :=
  if inNoneFalse v then []
  else if isTrueId v then [flagName name]
  else [flagName name, pyStr v]

/-- The marshalling loop: fold over the merged option items, appending
each field's tokens to the accumulated `cmd_args`. -/
def buildCmdArgs (pyArgs : List (String × PyVal)) : List String :=
  pyArgs.foldl
    (fun acc nv =>
      if inNoneFalse nv.2 then acc
      else if isTrueId nv.2 then acc ++ [flagName nv.1]
      else acc ++ [flagName nv.1, pyStr nv.2]) []

/-- The five optional metadata fields. -/
structure Metadata where
  title : Option String
  author : Option String
  subject : Option String
  creator : Option String
  producer : Option String
deriving DecidableEq

/-- Metadata with every field unset. -/
def emptyMeta : Metadata :=
  ⟨Option.none, Option.none, Option.none, Option.none, Option.none⟩

/-- The fixed field order used to build the metadata block. -/
def fieldList (m : Metadata) : List (String × Option String) :=
  [("Title", m.title), ("Author", m.author), ("Subject", m.subject),
   ("Creator", m.creator), ("Producer", m.producer)]

/-- Python truthiness of an optional string: set and non-empty. -/
def truthy : Option String → Bool
  | Option.none => false
  | some s => !(s == "")

/-- One line of the metadata block, `/<Name> (<value>)`, when the value is
truthy. -/
def metaLine (nv : String × Option String) : Option String :=
  if truthy nv.2 then some ("/" ++ nv.1 ++ " (" ++ nv.2.getD "" ++ ")")
  else Option.none

/-- `'\n'.join(f'/\x7bname\x7d (\x7bvalue\x7d)' for name, value in fields if value)`. -/
def metadataStr (m : Metadata) : String :=
  String.intercalate "\n" ((fieldList m).filterMap metaLine)

/-- One item of a compiled replacement template: a literal byte, or a
reference to a match group (for the zero-group pattern used here, only
group 0 — the whole match — survives compilation). -/
inductive TmplItem where
  | lit (b : Nat)
  | group (n : Nat)
deriving DecidableEq

/-- ASCII decimal digit byte. -/
def isDigitByte (b : Nat) : Bool := 48 ≤ b && b ≤ 57

/-- ASCII octal digit byte. -/
def isOctByte (b : Nat) : Bool := 48 ≤ b && b ≤ 55

/-- ASCII letter byte. -/
def isAsciiLetterByte (b : Nat) : Bool :=
  (65 ≤ b && b ≤ 90) || (97 ≤ b && b ≤ 122)

/-- Split a `\g<name>` tail: read bytes up to the first `>` (62), return
the name and the remainder after `>`; `none` when the name is
unterminated. -/
def splitGName : List Nat → Option (List Nat × List Nat)
  | [] => Option.none
  | b :: rest =>
    if b = 62 then some ([], rest)
    else
      match splitGName rest with
      | some p => some (b :: p.1, p.2)
      | Option.none => Option.none

/-- Tail of a digit run in Python `int()` syntax: digits with single
underscores allowed between digits. -/
def digitsUTail : List Nat → Bool
  | [] => true
  | b :: rest =>
    if b = 95 then
      match rest with
      | c :: rest2 => isDigitByte c && digitsUTail rest2
      | [] => false
    else isDigitByte b && digitsUTail rest

/-- Python `int(name)` accepts the byte string: surrounding ASCII
whitespace stripped, one optional sign, then a non-empty digit run with
single underscores between digits. -/
def intParses (s : List Nat) : Bool :=
  let core := bstrip s
  let digs :=
    match core with
    | 43 :: rest => rest
    | 45 :: rest => rest
    | other => other
  match digs with
  | [] => false
  | b :: rest => isDigitByte b && digitsUTail rest

/-- Given that `intParses` holds, the parsed value is zero exactly when
every digit byte is `0`: the stripped core then contains only an optional
sign, zeros and underscores. -/
def intValueIsZero (s : List Nat) : Bool :=
  (bstrip s).all (fun b => b = 48 || b = 95 || b = 43 || b = 45)

/-- Template compilation of a `re.sub` bytes replacement, as CPython's
`re._parser.parse_template` does for a pattern with zero groups (the
anchor pattern has none), before any scanning happens.  `none` models
`re.error`/`IndexError`: a trailing backslash, a group reference other
than group 0 (`\1`…, `\g<n>` with n≠0, `\g<name>`), a malformed `\g`
form, an out-of-range octal escape, or `\\` plus an ASCII letter outside
the known-escape table.  Recognised escapes (`\n`, `\t`, …, `\0oo`,
`\ooo`) become their byte; `\\` plus a non-letter stays as both bytes;
`\g<name>` with `int(name) == 0` (any spelling: `0`, `00`, `+0`,
` 0`, `0_0`, …) is a reference to group 0, the whole match.  The fuel
argument is only a structural-recursion bound: every step consumes at
least one byte, so `length + 1` fuel always suffices. -/
def parseTemplateAux : Nat → List Nat → Option (List TmplItem)
  | 0, _ => Option.none
  | _ + 1, [] => some []
  | fuel + 1, b :: rest =>
    if b = 92 then
      match rest with
      | [] => Option.none
      | c :: rest2 =>
        if c = 103 then
          match rest2 with
          | d :: rest3 =>
            if d = 60 then
              match splitGName rest3 with
              | some p =>
                if p.1 ≠ [] ∧ intParses p.1 = true ∧ intValueIsZero p.1 = true then
                  (parseTemplateAux fuel p.2).map (fun l => TmplItem.group 0 :: l)
                else Option.none
              | Option.none => Option.none
            else Option.none
          | [] => Option.none
        else if c = 48 then
          match rest2 with
          | d1 :: rest3 =>
            if isOctByte d1 then
              match rest3 with
              | d2 :: rest4 =>
                if isOctByte d2 then
                  (parseTemplateAux fuel rest4).map
                    (fun l => TmplItem.lit ((d1 - 48) * 8 + (d2 - 48)) :: l)
                else
                  (parseTemplateAux fuel rest3).map
                    (fun l => TmplItem.lit (d1 - 48) :: l)
              | [] =>
                (parseTemplateAux fuel rest3).map
                  (fun l => TmplItem.lit (d1 - 48) :: l)
            else (parseTemplateAux fuel rest2).map (fun l => TmplItem.lit 0 :: l)
          | [] => (parseTemplateAux fuel rest2).map (fun l => TmplItem.lit 0 :: l)
        else if isDigitByte c then
          match rest2 with
          | d1 :: rest3 =>
            if isDigitByte d1 then
              match rest3 with
              | d2 :: rest4 =>
                if isOctByte c && isOctByte d1 && isOctByte d2 then
                  if (c - 48) * 64 + (d1 - 48) * 8 + (d2 - 48) ≤ 255 then
                    (parseTemplateAux fuel rest4).map
                      (fun l => TmplItem.lit ((c - 48) * 64 + (d1 - 48) * 8 + (d2 - 48)) :: l)
                  else Option.none
                else Option.none
              | [] => Option.none
            else Option.none
          | [] => Option.none
        else if c = 97 then (parseTemplateAux fuel rest2).map (fun l => TmplItem.lit 7 :: l)
        else if c = 98 then (parseTemplateAux fuel rest2).map (fun l => TmplItem.lit 8 :: l)
        else if c = 102 then (parseTemplateAux fuel rest2).map (fun l => TmplItem.lit 12 :: l)
        else if c = 110 then (parseTemplateAux fuel rest2).map (fun l => TmplItem.lit 10 :: l)
        else if c = 114 then (parseTemplateAux fuel rest2).map (fun l => TmplItem.lit 13 :: l)
        else if c = 116 then (parseTemplateAux fuel rest2).map (fun l => TmplItem.lit 9 :: l)
        else if c = 118 then (parseTemplateAux fuel rest2).map (fun l => TmplItem.lit 11 :: l)
        else if c = 92 then (parseTemplateAux fuel rest2).map (fun l => TmplItem.lit 92 :: l)
        else if isAsciiLetterByte c then Option.none
        else
          (parseTemplateAux fuel rest2).map
            (fun l => TmplItem.lit 92 :: TmplItem.lit c :: l)
    else (parseTemplateAux fuel rest).map (fun l => TmplItem.lit b :: l)

/-- Compile a replacement template, with always-sufficient fuel. -/
def parseTemplate (s : List Nat) : Option (List TmplItem) :=
  parseTemplateAux (s.length + 1) s

/-- Expand a compiled template at one match: literals stay, a group
reference inserts the matched bytes (only group 0 exists here). -/
def expandTmpl (tmpl : List TmplItem) (matched : List Nat) : List Nat :=
  (tmpl.map (fun it =>
    match it with
    | TmplItem.lit b => [b]
    | TmplItem.group _ => matched)).flatten

/-- Length of the greedy `.*` step: bytes before the next newline. -/
def restLen (s : List Nat) : Nat :=
  (s.takeWhile (fun b => b != 10)).length

/-- Length of the regex match `/Title.*\n.*\n/Producer.*` anchored at the
start of `s`, or `none` when the pattern does not match there.  `.` does
not cross newlines, so each `.*\n` deterministically consumes the rest of
the current line and its newline. -/
def matchLen (s : List Nat) : Option Nat :=
  if titleLit.isPrefixOf s then
    let a := restLen (s.drop 6)
    if (s.drop (6 + a)).head? = some 10 then
      let b := restLen (s.drop (6 + a + 1))
      if (s.drop (6 + a + 1 + b)).head? = some 10 then
        if producerLit.isPrefixOf (s.drop (6 + a + 1 + b + 1)) then
          some (6 + a + 1 + b + 1 + 9 + restLen (s.drop (6 + a + 1 + b + 1 + 9)))
        else Option.none
      else Option.none
    else Option.none
  else Option.none

/-- The scanning part of `re.sub(pattern, repl, s, count=1)` with an
already-compiled replacement template: replace the leftmost match of the
pattern (scanning start positions left to right) by the template expanded
at that match. -/
def reSubOnce (tmpl : List TmplItem) : List Nat → List Nat
  | [] => []
  | b :: rest =>
    match matchLen (b :: rest) with
    | some k => expandTmpl tmpl ((b :: rest).take k) ++ (b :: rest).drop k
    | Option.none => b :: reSubOnce tmpl rest

/-- The metadata patch step: build the block; when it is non-empty, run
`re.sub`, which first compiles the block as a replacement template —
raising `re.error` (modelled as `none`) on a bad template even when the
anchor pattern never matches — and then substitutes the expanded template
for the first `/Title.*\n.*\n/Producer.*` match. -/
def patch_metadata (meta : Metadata) (pdf : List Nat) : Option (List Nat) :=
  let metadata := metadataStr meta
  if metadata = "" then some pdf
  else
    match parseTemplate (strBytes metadata) with
    | some tmpl => some (reSubOnce tmpl pdf)
    | Option.none => Option.none

/-- Outcome of the external `wkhtmltopdf` process. -/
structure ProcResult where
  returncode : Int
  stdout : List Nat
  stderr : List Nat

/-- The failures `generate_pdf` can raise: the URL rejection, the render
failure carrying the attempted argument list and trimmed stderr, and the
`re.error` escaping from the metadata patch step's template compilation. -/
inductive GenError where
  | invalidSource
  | render (args : List String) (stderr : List Nat)
  | reError
deriving DecidableEq

/-- `generate_pdf`: reject URL-like sources, build the command line, run
the external process on the encoded source, apply the success policy
(exit status zero OR output starting with `%PDF`), then run the metadata
patch step, whose `re.error` (a failed replacement template) propagates
out of the call.  The process is a parameter from arguments and input
bytes to its result. -/
def generate_pdf (source : String) (meta : Metadata)
    (pyArgs : List (String × PyVal))
    (proc : List String → List Nat → ProcResult) :
    Except GenError (List Nat) :=
  if isUrlSource source then
    Except.error GenError.invalidSource
  else
    let cmd_args := buildCmdArgs pyArgs ++ ["-", "-"]
    let p := proc cmd_args (strBytes source)
    let pdf_bytes := p.stdout
    if p.returncode ≠ 0 ∧ pdf_bytes.take 4 ≠ pdfSig then
      Except.error (GenError.render cmd_args (bstrip p.stderr))
    else
      match patch_metadata meta pdf_bytes with
      | some out => Except.ok out
      | Option.none => Except.error GenError.reError

/-- Number of positions at which `pat` occurs in `s` (substring count,
counting overlaps by start position). -/
def countOcc (pat s : List Nat) : Nat :=
  ((List.range (s.length + 1)).filter
    (fun j => pat.isPrefixOf (s.drop j))).length

/-- A Python exception, as caught by `except Exception as e`: class name
and message, rendered as `'%s: %s' % (e.__class__.__name__, e)`. -/
structure PyExc where
  clsName : String
  msg : String

/-- `get_version`: the wkhtmltopdf part is the trimmed stdout of `-V`, or
the rendered exception when that call fails; the result always embeds the
package version.  Modelled from the spec: the repository's own version
literal lives in a version module not present in the sources, so it is
taken as a parameter that the accessor embeds verbatim. -/
def get_version (version : String) (wkOutcome : Except PyExc String) : String :=
  let wk_version :=
    match wkOutcome with
    | Except.ok s => s
    | Except.error e => e.clsName ++ ": " ++ e.msg
  "pydf version: " ++ version ++ "\nwkhtmltopdf version: " ++ wk_version

/-- Replace a field that is set to the empty string by an unset field. -/
def normField : Option String → Option String
  | some s => if s = "" then Option.none else some s
  | Option.none => Option.none

/-- Normalise every metadata field with `normField`. -/
def normMeta (m : Metadata) : Metadata :=
  ⟨normField m.title, normField m.author, normField m.subject,
   normField m.creator, normField m.producer⟩

/-- A field that is unset or set to the empty string. -/
def isUnsetOrEmpty : Option String → Bool
  | Option.none => true
  | some s => s == ""

/-- Every metadata field is unset or the empty string. -/
def allUnsetOrEmpty (m : Metadata) : Bool :=
  isUnsetOrEmpty m.title && isUnsetOrEmpty m.author &&
    isUnsetOrEmpty m.subject && isUnsetOrEmpty m.creator &&
    isUnsetOrEmpty m.producer

/-! Helper lemmas about the substitution machinery. -/

theorem isPrefixOf_self_append (p z : List Nat) : p.isPrefixOf (p ++ z) = true := by
  induction p with
  | nil => simp [List.isPrefixOf]
  | cons a p ih => simp [List.isPrefixOf, ih]

theorem restLen_no_nl (t : List Nat) (h : ∀ b ∈ t, b ≠ 10) :
    restLen t = t.length := by
  induction t with
  | nil => rfl
  | cons a t ih =>
    have ha : (a != 10) = true := by
      simp only [bne_iff_ne, ne_eq]
      exact h a (by simp)
    simp only [restLen, List.takeWhile_cons, ha, if_true, List.length_cons]
    have := ih (fun b hb => h b (by simp [hb]))
    simp only [restLen] at this
    omega

theorem restLen_append_nl (t z : List Nat) (h : ∀ b ∈ t, b ≠ 10) :
    restLen (t ++ 10 :: z) = t.length := by
  have hp : ∀ b ∈ t, (b != 10) = true := by
    intro b hb
    simp only [bne_iff_ne, ne_eq]
    exact h b hb
  simp [restLen, List.takeWhile_append_of_pos hp, List.takeWhile_cons]

theorem matchLen_nil : matchLen [] = Option.none := rfl

theorem matchLen_head_ne (b : Nat) (rest : List Nat) (h : b ≠ 47) :
    matchLen (b :: rest) = Option.none := by
  have h47 : (47 == b) = false := beq_eq_false_iff_ne.mpr (Ne.symm h)
  simp [matchLen, titleLit, List.isPrefixOf, h47]

theorem reSubOnce_some (tmpl : List TmplItem) (b : Nat) (rest : List Nat)
    (k : Nat) (h : matchLen (b :: rest) = some k) :
    reSubOnce tmpl (b :: rest) =
      expandTmpl tmpl ((b :: rest).take k) ++ (b :: rest).drop k := by
  simp [reSubOnce, h]

theorem reSubOnce_none (tmpl : List TmplItem) (b : Nat) (rest : List Nat)
    (h : matchLen (b :: rest) = Option.none) :
    reSubOnce tmpl (b :: rest) = b :: reSubOnce tmpl rest := by
  simp [reSubOnce, h]

theorem matchLen_structured (t m r post : List Nat)
    (ht : ∀ b ∈ t, b ≠ 10) (hm : ∀ b ∈ m, b ≠ 10) (hr : ∀ b ∈ r, b ≠ 10)
    (hpost : post = [] ∨ ∃ q, post = 10 :: q) :
    matchLen (titleLit ++ (t ++ (10 :: (m ++ (10 :: (producerLit ++ (r ++ post))))))) =
      some (6 + t.length + 1 + m.length + 1 + 9 + r.length) := by
  set Z3 : List Nat := producerLit ++ (r ++ post) with hZ3
  set Z2 : List Nat := m ++ (10 :: Z3) with hZ2
  set Z1 : List Nat := t ++ (10 :: Z2) with hZ1
  have hp1 : titleLit.isPrefixOf (titleLit ++ Z1) = true := isPrefixOf_self_append _ _
  have hd6 : (titleLit ++ Z1).drop 6 = Z1 := List.drop_left' rfl
  have ha : restLen Z1 = t.length := by rw [hZ1]; exact restLen_append_nl t Z2 ht
  have hd1 : (titleLit ++ Z1).drop (6 + t.length) = 10 :: Z2 := by
    rw [← List.drop_drop, hd6, hZ1, List.drop_left]
  have hd2 : (titleLit ++ Z1).drop (6 + t.length + 1) = Z2 := by
    rw [← List.drop_drop, hd1, List.drop_succ_cons, List.drop_zero]
  have hb : restLen Z2 = m.length := by rw [hZ2]; exact restLen_append_nl m Z3 hm
  have hd3 : (titleLit ++ Z1).drop (6 + t.length + 1 + m.length) = 10 :: Z3 := by
    rw [← List.drop_drop, hd2, hZ2, List.drop_left]
  have hd4 : (titleLit ++ Z1).drop (6 + t.length + 1 + m.length + 1) = Z3 := by
    rw [← List.drop_drop, hd3, List.drop_succ_cons, List.drop_zero]
  have hp2 : producerLit.isPrefixOf Z3 = true := hZ3 ▸ isPrefixOf_self_append _ _
  have hd5 : (titleLit ++ Z1).drop (6 + t.length + 1 + m.length + 1 + 9) = r ++ post := by
    rw [← List.drop_drop, hd4, hZ3]
    exact List.drop_left' rfl
  have hrp : restLen (r ++ post) = r.length := by
    rcases hpost with hp | ⟨q, hq⟩
    · rw [hp, List.append_nil]; exact restLen_no_nl r hr
    · rw [hq]; exact restLen_append_nl r q hr
  unfold matchLen
  simp only [hp1, if_true, hd6, ha, hd1, hd2, hb, hd3, hd4, hp2, hd5, hrp,
    List.head?_cons]

theorem drop_span (t m r post : List Nat) :
    (titleLit ++ (t ++ (10 :: (m ++ (10 :: (producerLit ++ (r ++ post))))))).drop
      (6 + t.length + 1 + m.length + 1 + 9 + r.length) = post := by
  set Z3 : List Nat := producerLit ++ (r ++ post) with hZ3
  set Z2 : List Nat := m ++ (10 :: Z3) with hZ2
  set Z1 : List Nat := t ++ (10 :: Z2) with hZ1
  have hd6 : (titleLit ++ Z1).drop 6 = Z1 := List.drop_left' rfl
  have hd1 : (titleLit ++ Z1).drop (6 + t.length) = 10 :: Z2 := by
    rw [← List.drop_drop, hd6, hZ1, List.drop_left]
  have hd2 : (titleLit ++ Z1).drop (6 + t.length + 1) = Z2 := by
    rw [← List.drop_drop, hd1, List.drop_succ_cons, List.drop_zero]
  have hd3 : (titleLit ++ Z1).drop (6 + t.length + 1 + m.length) = 10 :: Z3 := by
    rw [← List.drop_drop, hd2, hZ2, List.drop_left]
  have hd4 : (titleLit ++ Z1).drop (6 + t.length + 1 + m.length + 1) = Z3 := by
    rw [← List.drop_drop, hd3, List.drop_succ_cons, List.drop_zero]
  have hd5 : (titleLit ++ Z1).drop (6 + t.length + 1 + m.length + 1 + 9) = r ++ post := by
    rw [← List.drop_drop, hd4, hZ3]
    exact List.drop_left' rfl
  rw [← List.drop_drop, hd5, List.drop_left]

theorem reSubOnce_eq_of_some (tmpl : List TmplItem) (s : List Nat) (k : Nat)
    (h : matchLen s = some k) :
    reSubOnce tmpl s = expandTmpl tmpl (s.take k) ++ s.drop k := by
  cases s with
  | nil => rw [matchLen_nil] at h; exact absurd h (by simp)
  | cons b rest => exact reSubOnce_some tmpl b rest k h

theorem span_append (t m r post : List Nat) :
    titleLit ++ (t ++ (10 :: (m ++ (10 :: (producerLit ++ (r ++ post)))))) =
      (titleLit ++ (t ++ (10 :: (m ++ (10 :: (producerLit ++ r)))))) ++ post := by
  simp [List.append_assoc]

theorem span_length (t m r : List Nat) :
    (titleLit ++ (t ++ (10 :: (m ++ (10 :: (producerLit ++ r)))))).length =
      6 + t.length + 1 + m.length + 1 + 9 + r.length := by
  simp [titleLit, producerLit]
  omega

theorem take_span (t m r post : List Nat) :
    (titleLit ++ (t ++ (10 :: (m ++ (10 :: (producerLit ++ (r ++ post))))))).take
      (6 + t.length + 1 + m.length + 1 + 9 + r.length) =
      titleLit ++ (t ++ (10 :: (m ++ (10 :: (producerLit ++ r))))) := by
  rw [span_append]
  exact List.take_left' (span_length t m r)

theorem reSubOnce_decomp (tmpl : List TmplItem) (pre t m r post : List Nat)
    (ht : ∀ b ∈ t, b ≠ 10) (hm : ∀ b ∈ m, b ≠ 10) (hr : ∀ b ∈ r, b ≠ 10)
    (hpost : post = [] ∨ ∃ q, post = 10 :: q)
    (hpre : ∀ j < pre.length,
      matchLen ((pre ++ (titleLit ++ (t ++ (10 :: (m ++ (10 :: (producerLit ++ (r ++ post)))))))).drop j) =
        Option.none) :
    reSubOnce tmpl (pre ++ (titleLit ++ (t ++ (10 :: (m ++ (10 :: (producerLit ++ (r ++ post)))))))) =
      pre ++ (expandTmpl tmpl (titleLit ++ (t ++ (10 :: (m ++ (10 :: (producerLit ++ r)))))) ++ post) := by
  revert hpre
  induction pre with
  | nil =>
    intro _
    rw [List.nil_append, List.nil_append]
    rw [reSubOnce_eq_of_some tmpl _ _ (matchLen_structured t m r post ht hm hr hpost)]
    rw [take_span, drop_span]
  | cons p pre' ih =>
    intro hpre
    have h0 : matchLen (p :: (pre' ++ (titleLit ++ (t ++ (10 :: (m ++ (10 :: (producerLit ++ (r ++ post))))))))) =
        Option.none := by
      have := hpre 0 (by simp)
      simpa using this
    have hpre' : ∀ j < pre'.length,
        matchLen ((pre' ++ (titleLit ++ (t ++ (10 :: (m ++ (10 :: (producerLit ++ (r ++ post)))))))).drop j) =
          Option.none := by
      intro j hj
      have := hpre (j + 1) (by simp; omega)
      simpa using this
    rw [List.cons_append, reSubOnce_none tmpl p _ h0, ih hpre', List.cons_append]

theorem reSubOnce_id (tmpl : List TmplItem) (s : List Nat)
    (h : ∀ j < s.length, matchLen (s.drop j) = Option.none) :
    reSubOnce tmpl s = s := by
  induction s with
  | nil => rfl
  | cons b rest ih =>
    have h0 : matchLen (b :: rest) = Option.none := by
      have := h 0 (by simp)
      simpa using this
    have h' : ∀ j < rest.length, matchLen (rest.drop j) = Option.none := by
      intro j hj
      have := h (j + 1) (by simp; omega)
      simpa using this
    rw [reSubOnce_none tmpl b rest h0, ih h']

theorem reSubOnce_take_four (tmpl : List TmplItem) (pdf : List Nat)
    (h : pdf.take 4 = pdfSig) :
    (reSubOnce tmpl pdf).take 4 = pdfSig := by
  simp only [pdfSig] at h
  cases pdf with
  | nil => simp at h
  | cons a r1 =>
  cases r1 with
  | nil => simp at h
  | cons b r2 =>
  cases r2 with
  | nil => simp at h
  | cons c r3 =>
  cases r3 with
  | nil => simp at h
  | cons d rest =>
  simp only [List.take_succ_cons, List.take_zero, List.cons.injEq, and_true] at h
  obtain ⟨h1, h2, h3, h4⟩ := h
  subst h1; subst h2; subst h3; subst h4
  rw [reSubOnce_none tmpl 37 _ (matchLen_head_ne _ _ (by decide))]
  rw [reSubOnce_none tmpl 80 _ (matchLen_head_ne _ _ (by decide))]
  rw [reSubOnce_none tmpl 68 _ (matchLen_head_ne _ _ (by decide))]
  rw [reSubOnce_none tmpl 70 _ (matchLen_head_ne _ _ (by decide))]
  rfl

theorem countOcc_middle (pat x y : List Nat) :
    1 ≤ countOcc pat (x ++ (pat ++ y)) := by
  unfold countOcc
  have hmem : x.length ∈ (List.range ((x ++ (pat ++ y)).length + 1)).filter
      (fun j => pat.isPrefixOf ((x ++ (pat ++ y)).drop j)) := by
    rw [List.mem_filter]
    refine ⟨?_, ?_⟩
    · rw [List.mem_range]
      simp [List.length_append]
      omega
    · rw [List.drop_left]
      exact isPrefixOf_self_append pat y
  exact List.length_pos.mpr (List.ne_nil_of_mem hmem)

theorem metaLine_normField (name : String) (v : Option String) :
    metaLine (name, normField v) = metaLine (name, v) := by
  cases v with
  | none => rfl
  | some s =>
    by_cases hs : s = ""
    · subst hs; rfl
    · simp [normField, hs]

theorem metadataStr_norm (m : Metadata) :
    metadataStr (normMeta m) = metadataStr m := by
  simp only [metadataStr, fieldList, normMeta, List.filterMap_cons, metaLine_normField]

theorem metaLine_none_of_unset (name : String) (v : Option String)
    (h : isUnsetOrEmpty v = true) : metaLine (name, v) = Option.none := by
  cases v with
  | none => rfl
  | some s =>
    simp only [isUnsetOrEmpty, beq_iff_eq] at h
    subst h
    rfl

theorem metadataStr_of_allUnset (m : Metadata) (h : allUnsetOrEmpty m = true) :
    metadataStr m = "" := by
  simp only [allUnsetOrEmpty, Bool.and_eq_true] at h
  obtain ⟨⟨⟨⟨h1, h2⟩, h3⟩, h4⟩, h5⟩ := h
  simp only [metadataStr, fieldList, List.filterMap_cons,
    metaLine_none_of_unset _ _ h1, metaLine_none_of_unset _ _ h2,
    metaLine_none_of_unset _ _ h3, metaLine_none_of_unset _ _ h4,
    metaLine_none_of_unset _ _ h5, List.filterMap_nil]
  rfl

/-! Claim theorems. -/

/-- C1: for a non-URL source, `generate_pdf` fails — with the render error
carrying the attempted argument list and the trimmed error-stream bytes —
exactly when the process exit status is non-zero AND the first four output
bytes are not `%PDF`; in every other case the render is treated as
successful and the captured output bytes are handed to the metadata patch
step, whose outcome (including a possible `re.error` from its replacement
template) is exactly what the call returns. -/
theorem C1_success_policy (source : String) (meta : Metadata)
    (pyArgs : List (String × PyVal))
    (proc : List String → List Nat → ProcResult)
    (hsrc : isUrlSource source = false) :
    (generate_pdf source meta pyArgs proc =
        Except.error (GenError.render (buildCmdArgs pyArgs ++ ["-", "-"])
          (bstrip (proc (buildCmdArgs pyArgs ++ ["-", "-"]) (strBytes source)).stderr)) ↔
      ((proc (buildCmdArgs pyArgs ++ ["-", "-"]) (strBytes source)).returncode ≠ 0 ∧
        (proc (buildCmdArgs pyArgs ++ ["-", "-"]) (strBytes source)).stdout.take 4 ≠ pdfSig)) ∧
    (((proc (buildCmdArgs pyArgs ++ ["-", "-"]) (strBytes source)).returncode = 0 ∨
        (proc (buildCmdArgs pyArgs ++ ["-", "-"]) (strBytes source)).stdout.take 4 = pdfSig) →
      ∀ result : List Nat,
        generate_pdf source meta pyArgs proc = Except.ok result ↔
          patch_metadata meta
            (proc (buildCmdArgs pyArgs ++ ["-", "-"]) (strBytes source)).stdout =
            some result) := by
  simp only [generate_pdf, hsrc, Bool.false_eq_true, if_false]
  by_cases hc : (proc (buildCmdArgs pyArgs ++ ["-", "-"]) (strBytes source)).returncode ≠ 0 ∧
      (proc (buildCmdArgs pyArgs ++ ["-", "-"]) (strBytes source)).stdout.take 4 ≠ pdfSig
  · rw [if_pos hc]
    refine ⟨⟨fun _ => hc, fun _ => rfl⟩, fun hok => ?_⟩
    rcases hok with h0 | hsig
    · exact absurd h0 hc.1
    · exact absurd hsig hc.2
  · rw [if_neg hc]
    refine ⟨⟨fun he => absurd he ?_, fun hh => absurd hh hc⟩, fun _ result => ?_⟩
    · cases hpm : patch_metadata meta
          (proc (buildCmdArgs pyArgs ++ ["-", "-"]) (strBytes source)).stdout with
      | none => simp [hpm]
      | some found => simp [hpm]
    · cases hpm : patch_metadata meta
          (proc (buildCmdArgs pyArgs ++ ["-", "-"]) (strBytes source)).stdout with
      | none => simp [hpm]
      | some found => simp [hpm]

/-- C1 witness: a failing process (exit 1, no signature) yields the render
error with the built arguments and trimmed stderr. -/
theorem C1_success_policy_witness :
    generate_pdf "<h1>hi</h1>" emptyMeta [("grayscale", PyVal.bool true)]
        (fun _ _ => ProcResult.mk 1 [] [32, 101, 114, 114, 10]) =
      Except.error (GenError.render
        (buildCmdArgs [("grayscale", PyVal.bool true)] ++ ["-", "-"])
        (bstrip [32, 101, 114, 114, 10])) :=
  (C1_success_policy "<h1>hi</h1>" emptyMeta [("grayscale", PyVal.bool true)]
      (fun _ _ => ProcResult.mk 1 [] [32, 101, 114, 114, 10])
      (by decide)).1.mpr ⟨by decide, by decide⟩

/-- C2 counterexample: exit status zero with empty output is reported
successful, yet the returned byte sequence does not begin with `%PDF`. -/
theorem C2_signature_cex :
    generate_pdf "<h1>hi</h1>" emptyMeta []
        (fun _ _ => ProcResult.mk 0 [] []) = Except.ok [] ∧
      ([] : List Nat).take 4 ≠ pdfSig := by
  refine ⟨rfl, by decide⟩

/-- C2 (amended): when the exit status is non-zero, a render reported as
successful returns bytes beginning with `%PDF`: the signature branch is
what admitted it, and the metadata patch cannot alter the first four
bytes of a `%PDF`-prefixed document. -/
theorem C2_signature_amended (source : String) (meta : Metadata)
    (pyArgs : List (String × PyVal))
    (proc : List String → List Nat → ProcResult) (out : List Nat)
    (h1 : generate_pdf source meta pyArgs proc = Except.ok out)
    (h2 : (proc (buildCmdArgs pyArgs ++ ["-", "-"]) (strBytes source)).returncode ≠ 0) :
    out.take 4 = pdfSig := by
  by_cases hu : isUrlSource source
  · simp [generate_pdf, hu] at h1
  · simp only [Bool.not_eq_true] at hu
    simp only [generate_pdf, hu, Bool.false_eq_true, if_false] at h1
    by_cases hc : (proc (buildCmdArgs pyArgs ++ ["-", "-"]) (strBytes source)).returncode ≠ 0 ∧
        (proc (buildCmdArgs pyArgs ++ ["-", "-"]) (strBytes source)).stdout.take 4 ≠ pdfSig
    · rw [if_pos hc] at h1
      simp at h1
    · rw [if_neg hc] at h1
      have hsig : (proc (buildCmdArgs pyArgs ++ ["-", "-"]) (strBytes source)).stdout.take 4 =
          pdfSig := by
        by_cases hs : (proc (buildCmdArgs pyArgs ++ ["-", "-"]) (strBytes source)).stdout.take 4 =
            pdfSig
        · exact hs
        · exact absurd ⟨h2, hs⟩ hc
      cases hpm : patch_metadata meta
          (proc (buildCmdArgs pyArgs ++ ["-", "-"]) (strBytes source)).stdout with
      | none => simp [hpm] at h1
      | some found =>
        simp only [hpm, Except.ok.injEq] at h1
        subst h1
        simp only [patch_metadata] at hpm
        split at hpm
        · simp only [Option.some.injEq] at hpm
          subst hpm
          exact hsig
        · split at hpm
          · simp only [Option.some.injEq] at hpm
            subst hpm
            exact reSubOnce_take_four _ _ hsig
          · exact absurd hpm (by simp)

/-- C2 amended witness: a nonzero-exit process whose output carries the
signature succeeds and the result starts with `%PDF`. -/
theorem C2_signature_amended_witness :
    ([37, 80, 68, 70, 45] : List Nat).take 4 = pdfSig :=
  C2_signature_amended "<h1>hi</h1>" emptyMeta []
    (fun _ _ => ProcResult.mk 1 [37, 80, 68, 70, 45] [])
    [37, 80, 68, 70, 45] rfl (by decide)

/-- C3 counterexample: a document whose `/Producer` line immediately
follows the `/Title` line (zero intervening lines) contains a
Title-through-Producer span in the claim's sense, yet the patcher leaves
it byte-identical: the pattern needs exactly one intervening line. -/
theorem C3_anchor_cex :
    patch_metadata
        ⟨some "t2", Option.none, Option.none, Option.none, Option.none⟩
        (strBytes "/Title t\n/Producer p\nx") =
      some (strBytes "/Title t\n/Producer p\nx") := by decide

/-- C3 (amended): when the metadata block is non-empty and compiles as a
replacement template, the patcher replaces the first occurrence of a span
of exactly three pieces — the rest of the `/Title` line, one full
intervening line, and a line that begins with `/Producer`, through the
end of that line — with the compiled template expanded at that span
(the block itself whenever it contains no backslash). -/
theorem C3_anchor_amended (meta : Metadata) (pre t m r post : List Nat)
    (tm : List TmplItem)
    (hmeta : metadataStr meta ≠ "")
    (hT : parseTemplate (strBytes (metadataStr meta)) = some tm)
    (ht : ∀ b ∈ t, b ≠ 10) (hm : ∀ b ∈ m, b ≠ 10) (hr : ∀ b ∈ r, b ≠ 10)
    (hpost : post = [] ∨ ∃ q, post = 10 :: q)
    (hpre : ∀ j < pre.length,
      matchLen ((pre ++ (titleLit ++ (t ++ (10 :: (m ++ (10 :: (producerLit ++ (r ++ post)))))))).drop j) =
        Option.none) :
    patch_metadata meta
        (pre ++ (titleLit ++ (t ++ (10 :: (m ++ (10 :: (producerLit ++ (r ++ post)))))))) =
      some (pre ++ (expandTmpl tm
        (titleLit ++ (t ++ (10 :: (m ++ (10 :: (producerLit ++ r)))))) ++ post)) := by
  simp only [patch_metadata]
  rw [if_neg hmeta]
  simp only [hT]
  exact congrArg some (reSubOnce_decomp tm pre t m r post ht hm hr hpost hpre)

/-- C3 amended witness: patching a minimal three-line document replaces
exactly the anchored span with the (backslash-free, hence literal)
block. -/
theorem C3_anchor_amended_witness :
    patch_metadata ⟨some "t", Option.none, Option.none, Option.none, Option.none⟩
        ([] ++ (titleLit ++ ([] ++ (10 :: ([120] ++ (10 :: (producerLit ++ ([32, 112] ++ [])))))))) =
      some ([] ++ (expandTmpl
        ((strBytes (metadataStr
          ⟨some "t", Option.none, Option.none, Option.none, Option.none⟩)).map TmplItem.lit)
        (titleLit ++ ([] ++ (10 :: ([120] ++ (10 :: (producerLit ++ [32, 112])))))) ++ [])) :=
  C3_anchor_amended ⟨some "t", Option.none, Option.none, Option.none, Option.none⟩
    [] [] [120] [32, 112] []
    ((strBytes (metadataStr
      ⟨some "t", Option.none, Option.none, Option.none, Option.none⟩)).map TmplItem.lit)
    (by decide) (by decide) (by decide) (by decide) (by decide)
    (Or.inl rfl) (by decide)

/-- C4: at the failing input — an option field whose value is the integer
zero, here `image_dpi=0` — the marshaller emits no token at all, because
Python set membership `value in \x7bNone, False\x7d` tests equality and
`0 == False`; the claim (and the function's own docstring) require the two
tokens `--image-dpi` and `0`. -/
theorem C4_zero_dropped :
    buildCmdArgs [("image_dpi", PyVal.int 0)] = [] ∧
      pyStr (PyVal.int 0) = "0" := by
  refine ⟨rfl, rfl⟩

/-- C5: `generate_pdf` raises the invalid-source rejection exactly for
sources whose left-stripped text starts with `http` or `www`, and it does
so independently of the external process (which is universally
quantified, so no process behaviour can influence the rejection). -/
theorem C5_url_reject (source : String) (meta : Metadata)
    (pyArgs : List (String × PyVal))
    (proc : List String → List Nat → ProcResult) :
    generate_pdf source meta pyArgs proc = Except.error GenError.invalidSource ↔
      isUrlSource source = true := by
  by_cases hu : isUrlSource source
  · simp [generate_pdf, hu]
  · simp only [Bool.not_eq_true] at hu
    simp only [generate_pdf, hu, Bool.false_eq_true, if_false]
    constructor
    · intro he
      split at he
      · simp at he
      · split at he <;> simp at he
    · intro he
      exact he.elim

/-- C6: the version accessor is a total function of the external
invocation's outcome — error outcomes included — and its result always
embeds the package's own version literal. -/
theorem C6_version_total (version : String) (wkOutcome : Except PyExc String) :
    ∃ a b : String, get_version version wkOutcome = a ++ version ++ b := by
  cases wkOutcome with
  | ok s =>
    refine ⟨"pydf version: ", "\nwkhtmltopdf version: " ++ s, ?_⟩
    rw [← String.append_assoc]
    rfl
  | error e =>
    refine ⟨"pydf version: ", "\nwkhtmltopdf version: " ++ (e.clsName ++ ": " ++ e.msg), ?_⟩
    rw [← String.append_assoc]
    rfl

/-- C7 counterexample: the patch step is not error-free on anchorless
documents — a metadata value containing `\1` makes `re.sub` raise
`re.error` (invalid group reference, the pattern has no groups) while
compiling the replacement template, even though the document contains no
anchor span at any position. -/
theorem C7_no_anchor_cex :
    (∀ j < (strBytes "hello").length,
      matchLen ((strBytes "hello").drop j) = Option.none) ∧
    patch_metadata ⟨some "\\1", Option.none, Option.none, Option.none, Option.none⟩
        (strBytes "hello") = Option.none := by
  refine ⟨by decide, by decide⟩

/-- C7 (amended): on a byte sequence where the anchor pattern matches at
no position, the patch step returns the input byte-identical for every
metadata assignment whose block compiles as a replacement template (in
particular whenever it contains no backslash); a block failing template
compilation instead raises `re.error` even with no anchor present. -/
theorem C7_no_anchor_amended (meta : Metadata) (pdf : List Nat)
    (h : ∀ j < pdf.length, matchLen (pdf.drop j) = Option.none)
    (hT : metadataStr meta = "" ∨
      ∃ tm, parseTemplate (strBytes (metadataStr meta)) = some tm) :
    patch_metadata meta pdf = some pdf := by
  by_cases hme : metadataStr meta = ""
  · simp [patch_metadata, hme]
  · rcases hT with hemp | ⟨tm, htm⟩
    · exact absurd hemp hme
    · simp only [patch_metadata]
      rw [if_neg hme]
      simp only [htm]
      exact congrArg some (reSubOnce_id tm pdf h)

/-- C7 amended witness: a document without the anchor is returned
unchanged under backslash-free metadata. -/
theorem C7_no_anchor_amended_witness :
    patch_metadata ⟨some "t", some "a", Option.none, Option.none, Option.none⟩
        (strBytes "hello world") = some (strBytes "hello world") :=
  C7_no_anchor_amended ⟨some "t", some "a", Option.none, Option.none, Option.none⟩
    (strBytes "hello world") (by decide)
    (Or.inr ⟨(strBytes (metadataStr
      ⟨some "t", some "a", Option.none, Option.none, Option.none⟩)).map TmplItem.lit,
      by decide⟩)

/-- C8 counterexample: a patched document in which the metadata block also
occurs past the matched span: the block appears twice in the output, not
exactly once. -/
theorem C8_once_cex :
    patch_metadata ⟨some "t", Option.none, Option.none, Option.none, Option.none⟩
        (strBytes "/Title x\nmid\n/Producer p\n/Title (t)") =
      some (strBytes "/Title (t)\n/Title (t)") ∧
    strBytes "/Title (t)\n/Title (t)" ≠
      strBytes "/Title x\nmid\n/Producer p\n/Title (t)" ∧
    countOcc
        (strBytes (metadataStr
          ⟨some "t", Option.none, Option.none, Option.none, Option.none⟩))
        (strBytes "/Title (t)\n/Title (t)") = 2 := by
  refine ⟨by decide, by decide, by decide⟩

/-- C8 (amended): whenever the patcher rewrites the anchored span, the
compiled metadata block (the block itself when it is backslash-free)
appears in the output at least once — it can also occur in the untouched
remainder — and the output length differs from the input length exactly
by the expanded block length minus the matched span length. -/
theorem C8_once_amended (meta : Metadata) (pre t m r post : List Nat)
    (tm : List TmplItem) (out : List Nat)
    (hmeta : metadataStr meta ≠ "")
    (hT : parseTemplate (strBytes (metadataStr meta)) = some tm)
    (ht : ∀ b ∈ t, b ≠ 10) (hm : ∀ b ∈ m, b ≠ 10) (hr : ∀ b ∈ r, b ≠ 10)
    (hpost : post = [] ∨ ∃ q, post = 10 :: q)
    (hpre : ∀ j < pre.length,
      matchLen ((pre ++ (titleLit ++ (t ++ (10 :: (m ++ (10 :: (producerLit ++ (r ++ post)))))))).drop j) =
        Option.none)
    (hout : patch_metadata meta
        (pre ++ (titleLit ++ (t ++ (10 :: (m ++ (10 :: (producerLit ++ (r ++ post)))))))) =
      some out) :
    1 ≤ countOcc
        (expandTmpl tm (titleLit ++ (t ++ (10 :: (m ++ (10 :: (producerLit ++ r))))))) out ∧
    out.length + (6 + t.length + 1 + m.length + 1 + 9 + r.length) =
      (pre ++ (titleLit ++ (t ++ (10 :: (m ++ (10 :: (producerLit ++ (r ++ post)))))))).length +
        (expandTmpl tm (titleLit ++ (t ++ (10 :: (m ++ (10 :: (producerLit ++ r))))))).length := by
  have hpm : patch_metadata meta
      (pre ++ (titleLit ++ (t ++ (10 :: (m ++ (10 :: (producerLit ++ (r ++ post)))))))) =
      some (pre ++ (expandTmpl tm
        (titleLit ++ (t ++ (10 :: (m ++ (10 :: (producerLit ++ r)))))) ++ post)) := by
    simp only [patch_metadata]
    rw [if_neg hmeta]
    simp only [hT]
    exact congrArg some (reSubOnce_decomp tm pre t m r post ht hm hr hpost hpre)
  rw [hout] at hpm
  simp only [Option.some.injEq] at hpm
  subst hpm
  constructor
  · exact countOcc_middle _ pre post
  · have h6 : titleLit.length = 6 := rfl
    have h9 : producerLit.length = 9 := rfl
    simp only [span_append t m r post, List.length_append, List.length_cons, h6, h9]
    omega

/-- C8 amended witness: a concrete patch where the block occurs once and
the length delta is the block length minus the span length. -/
theorem C8_once_amended_witness :
    1 ≤ countOcc
        (expandTmpl ((strBytes (metadataStr
          ⟨Option.none, some "au", Option.none, Option.none, Option.none⟩)).map TmplItem.lit)
          (titleLit ++ ([32, 97] ++ (10 :: ([98] ++ (10 :: (producerLit ++ [32, 99])))))))
        ([37] ++ (expandTmpl ((strBytes (metadataStr
          ⟨Option.none, some "au", Option.none, Option.none, Option.none⟩)).map TmplItem.lit)
          (titleLit ++ ([32, 97] ++ (10 :: ([98] ++ (10 :: (producerLit ++ [32, 99])))))) ++ (10 :: [101]))) ∧
    ([37] ++ (expandTmpl ((strBytes (metadataStr
        ⟨Option.none, some "au", Option.none, Option.none, Option.none⟩)).map TmplItem.lit)
        (titleLit ++ ([32, 97] ++ (10 :: ([98] ++ (10 :: (producerLit ++ [32, 99])))))) ++ (10 :: [101]))).length +
        (6 + [32, 97].length + 1 + [98].length + 1 + 9 + [32, 99].length) =
      ([37] ++ (titleLit ++ ([32, 97] ++ (10 :: ([98] ++ (10 :: (producerLit ++ ([32, 99] ++ (10 :: [101]))))))))).length +
        (expandTmpl ((strBytes (metadataStr
          ⟨Option.none, some "au", Option.none, Option.none, Option.none⟩)).map TmplItem.lit)
          (titleLit ++ ([32, 97] ++ (10 :: ([98] ++ (10 :: (producerLit ++ [32, 99]))))))).length :=
  C8_once_amended ⟨Option.none, some "au", Option.none, Option.none, Option.none⟩
    [37] [32, 97] [98] [32, 99] (10 :: [101])
    ((strBytes (metadataStr
      ⟨Option.none, some "au", Option.none, Option.none, Option.none⟩)).map TmplItem.lit)
    ([37] ++ (expandTmpl ((strBytes (metadataStr
      ⟨Option.none, some "au", Option.none, Option.none, Option.none⟩)).map TmplItem.lit)
      (titleLit ++ ([32, 97] ++ (10 :: ([98] ++ (10 :: (producerLit ++ [32, 99])))))) ++ (10 :: [101])))
    (by decide) (by decide) (by decide) (by decide) (by decide)
    (Or.inr ⟨[101], rfl⟩) (by decide) (by decide)

/-- C9: when no metadata field is set, a successful pipeline run returns
exactly the raw bytes captured from the renderer, with no substitution. -/
theorem C9_no_fields_raw (source : String) (pyArgs : List (String × PyVal))
    (proc : List String → List Nat → ProcResult)
    (hsrc : isUrlSource source = false)
    (hok : (proc (buildCmdArgs pyArgs ++ ["-", "-"]) (strBytes source)).returncode = 0 ∨
      (proc (buildCmdArgs pyArgs ++ ["-", "-"]) (strBytes source)).stdout.take 4 = pdfSig) :
    generate_pdf source emptyMeta pyArgs proc =
      Except.ok ((proc (buildCmdArgs pyArgs ++ ["-", "-"]) (strBytes source)).stdout) := by
  simp only [generate_pdf, hsrc, Bool.false_eq_true, if_false]
  have hc : ¬((proc (buildCmdArgs pyArgs ++ ["-", "-"]) (strBytes source)).returncode ≠ 0 ∧
      (proc (buildCmdArgs pyArgs ++ ["-", "-"]) (strBytes source)).stdout.take 4 ≠ pdfSig) := by
    rcases hok with h0 | hsig
    · exact fun hco => hco.1 h0
    · exact fun hco => hco.2 hsig
  rw [if_neg hc]
  have hemp : metadataStr emptyMeta = "" := rfl
  simp [patch_metadata, hemp]

/-- C9 witness: with all fields unset the raw captured bytes come back. -/
theorem C9_no_fields_raw_witness :
    generate_pdf "<h1>hi</h1>" emptyMeta []
        (fun _ _ => ProcResult.mk 0 [1, 2, 3] []) = Except.ok [1, 2, 3] :=
  C9_no_fields_raw "<h1>hi</h1>" [] (fun _ _ => ProcResult.mk 0 [1, 2, 3] [])
    (by decide) (Or.inl rfl)

/-- C10: a metadata field set to the empty string behaves exactly as an
unset field — normalising empty fields to unset fields does not change the
patch step's outcome — and when every set field is empty, no patching
occurs and the input bytes are returned unchanged. -/
theorem C10_empty_as_unset (meta : Metadata) (pdf : List Nat) :
    patch_metadata meta pdf = patch_metadata (normMeta meta) pdf ∧
    (allUnsetOrEmpty meta = true → patch_metadata meta pdf = some pdf) := by
  constructor
  · simp only [patch_metadata, metadataStr_norm]
  · intro h
    simp [patch_metadata, metadataStr_of_allUnset meta h]

/-- C10 witness: a metadata record whose only set fields are empty strings
leaves the document untouched. -/
theorem C10_empty_as_unset_witness :
    patch_metadata ⟨some "", Option.none, Option.none, Option.none, some ""⟩
        [1, 2, 3] = some [1, 2, 3] :=
  (C10_empty_as_unset ⟨some "", Option.none, Option.none, Option.none, some ""⟩
    [1, 2, 3]).2 (by decide)

end Pydf
